import Mathlib

/-!
Verification of the core of `cache_manager` (src/src/main.rs): the
directory-size aggregation (`calculate_dir_size`, `get_cache_size`), the
cleaning engine (`clean_directory`, `clean_cache`) and the auto-clean
decision policy (`should_auto_clean`).

The filesystem is modelled as a tree of entries carrying the outcome of
the fallible system calls the Rust code makes on them:
`metaOk` — whether `DirEntry::metadata()` succeeds on the entry;
`listable` — whether `fs::read_dir` succeeds on a directory;
`deletable` — whether `fs::remove_file` succeeds on a file.
`DirEntry::metadata` does not follow symbolic links, so a symlink shows
up as an entry that is neither a regular file nor a directory: the
`other` constructor. `fs::remove_dir` succeeds exactly on an empty
directory.  `f32` quantities (sizes in GB) are modelled as exact
rationals, and `Instant` / `Duration` as rational numbers of seconds.
-/

namespace CacheSpec

/-- A filesystem entry as the Rust code observes it through
`fs::read_dir` and `DirEntry::metadata`. -/
inductive FsEntry : Type where
  | file (size : Nat) (metaOk : Bool) (deletable : Bool)
  | dir (metaOk : Bool) (listable : Bool) (children : List FsEntry)
  | other (metaOk : Bool)

mutual

/-- Contribution of one directory entry to the running total of
`calculate_dir_size`: a file with readable metadata contributes its
length; a directory with readable metadata contributes the recursive
call `calculate_dir_size(&entry.path())`, whose `read_dir` succeeds only
when the directory is listable; anything else contributes 0. -/
def entryContrib : FsEntry → Nat
  | .file sz mOk _ => if mOk then sz else 0
  | .other _ => 0
  | .dir mOk listable children =>
      if mOk && listable then contribChildren children else 0

/-- The `for entry in entries.flatten()` loop of `calculate_dir_size`. -/
def contribChildren : List FsEntry → Nat
  | [] => 0
  | c :: cs => entryContrib c + contribChildren cs

end

/-- `calculate_dir_size` applied to a path that resolves to this entry:
`fs::read_dir` fails on anything but a listable directory, and a failed
`read_dir` leaves the total at 0. -/
def dirSize : FsEntry → Nat
  | .dir _ listable children => if listable then contribChildren children else 0
  | _ => 0

/-- `calculate_dir_size` on a path (`none` = the path does not exist). -/
def calculate_dir_size : Option FsEntry → Nat
  | none => 0
  | some e => dirSize e

mutual

/-- What `clean_directory` does to one directory entry, threading the two
`&mut` accumulators `cleaned_count` and `cleaned_size`.  Returns the
entry after the pass (`none` = it was removed from its parent) together
with the updated accumulators.  A file with readable metadata has its
size captured first; if `fs::remove_file` succeeds the counters grow by
1 and by that size, otherwise the file is left untouched.  A directory
with readable metadata is cleaned recursively (`read_dir` inside the
recursive call succeeds only when it is listable) and then
`fs::remove_dir` is attempted, succeeding exactly when the directory is
now empty.  An entry whose metadata cannot be read, or that is neither a
file nor a directory, is skipped. -/
def cleanEntry : FsEntry → Nat → Nat → Option FsEntry × Nat × Nat
  | .file fsz mOk del, cnt, sz =>
      if mOk then
        if del then (none, cnt + 1, sz + fsz)
        else (some (.file fsz mOk del), cnt, sz)
      else (some (.file fsz mOk del), cnt, sz)
  | .other mOk, cnt, sz => (some (.other mOk), cnt, sz)
  | .dir mOk listable children, cnt, sz =>
      if mOk then
        let r := if listable then cleanChildren children cnt sz
                 else (children, cnt, sz)
        if r.1.isEmpty then (none, r.2.1, r.2.2)
        else (some (.dir mOk listable r.1), r.2.1, r.2.2)
      else (some (.dir mOk listable children), cnt, sz)

/-- The `for entry in entries.flatten()` loop of `clean_directory`:
processes the entries in order, keeping the survivors. -/
def cleanChildren : List FsEntry → Nat → Nat → List FsEntry × Nat × Nat
  | [], cnt, sz => ([], cnt, sz)
  | c :: cs, cnt, sz =>
      let r1 := cleanEntry c cnt sz
      let r2 := cleanChildren cs r1.2.1 r1.2.2
      (match r1.1 with
       | none => r2.1
       | some c2 => c2 :: r2.1, r2.2.1, r2.2.2)

end

/-- `clean_directory(path, &mut cleaned_count, &mut cleaned_size)` called
on a root path that resolves to this entry.  `read_dir` fails unless the
root is a listable directory, in which case nothing happens.  The root
itself receives no `remove_dir` call — only the entries inside the loop
do — so the root is returned as a directory in every case. -/
def clean_directory : FsEntry → Nat → Nat → FsEntry × Nat × Nat
  | .dir mOk listable children, cnt, sz =>
      if listable then
        let r := cleanChildren children cnt sz
        (.dir mOk listable r.1, r.2.1, r.2.2)
      else (.dir mOk listable children, cnt, sz)
  | e, cnt, sz => (e, cnt, sz)

/-- The configuration record (threshold slider value and auto-clean
checkbox), with the `f32` threshold modelled as an exact rational. -/
structure Config where
  cache_threshold_gb : ℚ
  auto_clean_enabled : Bool

/-- The application state, restricted to the fields the measurement,
cleaning and policy code reads and writes.  (`is_cleaning` and
`status_message` only drive the GUI and are omitted; `last_clean_time`
is an `Option<Instant>` modelled as an optional rational time in
seconds; each cache root is modelled by the tree its path resolves
to.) -/
structure CacheManager where
  config : Config
  last_clean_time : Option ℚ
  cache_size_gb : ℚ
  cache_dirs : List FsEntry

/-- The summing loop of `get_cache_size`: `calculate_dir_size` over every
root, accumulated into `total_size : u64`. -/
def total_cache_bytes (dirs : List FsEntry) : Nat :=
  (dirs.map fun d => calculate_dir_size (some d)).sum

/-- `get_cache_size`: the summed byte total converted to gigabytes by
dividing by `1024.0 * 1024.0 * 1024.0`. -/
def get_cache_size (dirs : List FsEntry) : ℚ :=
  (total_cache_bytes dirs : ℚ) / (1024 * 1024 * 1024)

/-- The `for cache_dir in &self.cache_dirs` loop of `clean_cache`:
`clean_directory` on every root with the two shared accumulators. -/
def cleanRoots : List FsEntry → Nat → Nat → List FsEntry × Nat × Nat
  | [], cnt, sz => ([], cnt, sz)
  | d :: ds, cnt, sz =>
      let r1 := clean_directory d cnt sz
      let r2 := cleanRoots ds r1.2.1 r1.2.2
      (r1.1 :: r2.1, r2.2.1, r2.2.2)

/-- `clean_cache` at time `now`: cleans every root with accumulators
starting at 0, stores `Some(Instant::now())` into `last_clean_time`,
and re-measures `cache_size_gb` with `get_cache_size` on the cleaned
state.  Returns the new state together with the final
`(cleaned_count, cleaned_size)` pair (which the Rust code formats into
the status message). -/
def clean_cache (m : CacheManager) (now : ℚ) : CacheManager × Nat × Nat :=
  let r := cleanRoots m.cache_dirs 0 0
  ({ m with
      cache_dirs := r.1
      last_clean_time := some now
      cache_size_gb := get_cache_size r.1 },
   r.2.1, r.2.2)

/-- `should_auto_clean` evaluated at time `now`: mirrors the Rust control
flow — an early `false` when the checkbox is off, an early `false` when
a previous clean exists and less than 30 seconds have elapsed since it,
and otherwise the threshold test `cache_size_gb >= cache_threshold_gb`. -/
def should_auto_clean (m : CacheManager) (now : ℚ) : Bool :=
  if !m.config.auto_clean_enabled then false
  else
    match m.last_clean_time with
    | some last_time =>
        if now - last_time < 30 then false
        else decide (m.config.cache_threshold_gb ≤ m.cache_size_gb)
    | none => decide (m.config.cache_threshold_gb ≤ m.cache_size_gb)

mutual

/-- Number of files the cleaner reaches from this directory entry and
deletes: files whose metadata is readable and whose deletion succeeds,
found through directories whose metadata is readable and that are
listable. -/
def delCountEntry : FsEntry → Nat
  | .file _ mOk del => if mOk && del then 1 else 0
  | .other _ => 0
  | .dir mOk listable children =>
      if mOk && listable then delCountChildren children else 0

/-- `delCountEntry` summed over a list of entries. -/
def delCountChildren : List FsEntry → Nat
  | [] => 0
  | c :: cs => delCountEntry c + delCountChildren cs

end

mutual

/-- Total size of the files the cleaner reaches from this directory
entry and deletes. -/
def delBytesEntry : FsEntry → Nat
  | .file fsz mOk del => if mOk && del then fsz else 0
  | .other _ => 0
  | .dir mOk listable children =>
      if mOk && listable then delBytesChildren children else 0

/-- `delBytesEntry` summed over a list of entries. -/
def delBytesChildren : List FsEntry → Nat
  | [] => 0
  | c :: cs => delBytesEntry c + delBytesChildren cs

end

/-- Deletable files the cleaner reaches from a root path: the root gets a
plain `read_dir`, with no metadata check of its own. -/
def delCountRoot : FsEntry → Nat
  | .dir _ listable children => if listable then delCountChildren children else 0
  | _ => 0

/-- Bytes of the deletable files the cleaner reaches from a root path. -/
def delBytesRoot : FsEntry → Nat
  | .dir _ listable children => if listable then delBytesChildren children else 0
  | _ => 0

mutual

/-- The tree a directory entry leaves behind after one cleaning pass
(`none` = the entry was removed), independent of the accumulators. -/
def cleanResultEntry : FsEntry → Option FsEntry
  | .file fsz mOk del =>
      if mOk && del then none else some (.file fsz mOk del)
  | .other mOk => some (.other mOk)
  | .dir mOk listable children =>
      if mOk then
        let ch := if listable then cleanResultChildren children else children
        if ch.isEmpty then none else some (.dir mOk listable ch)
      else some (.dir mOk listable children)

/-- The surviving entries of a list after one cleaning pass. -/
def cleanResultChildren : List FsEntry → List FsEntry
  | [] => []
  | c :: cs =>
      match cleanResultEntry c with
      | none => cleanResultChildren cs
      | some c2 => c2 :: cleanResultChildren cs

end

/-- The `metaOk` flag of an entry: whether `DirEntry::metadata()`
succeeds on it. -/
def entryMetaOk : FsEntry → Bool
  | .file _ mOk _ => mOk
  | .dir mOk _ _ => mOk
  | .other mOk => mOk

/-- The measured size of an immediate child, counting only child
subdirectories: `calculate_dir_size` applied to the child's path when it
is a directory, 0 otherwise. -/
def childSubdirMeasure : FsEntry → Nat
  | .dir mOk listable children => dirSize (.dir mOk listable children)
  | _ => 0

/-- The length of an immediate child, counting only regular files
directly present. -/
def directFileSize : FsEntry → Nat
  | .file sz _ _ => sz
  | _ => 0

mutual

/-- Characterization of `cleanEntry`: the resulting tree does not depend
on the accumulators, and the accumulators grow exactly by the number and
total size of the reachable deletable files. -/
theorem cleanEntry_eq : ∀ (e : FsEntry) (cnt sz : Nat),
    cleanEntry e cnt sz
      = (cleanResultEntry e, cnt + delCountEntry e, sz + delBytesEntry e)
  | .file fsz mOk del, cnt, sz => by
      cases mOk <;> cases del <;>
        simp [cleanEntry, cleanResultEntry, delCountEntry, delBytesEntry]
  | .other mOk, cnt, sz => by
      simp [cleanEntry, cleanResultEntry, delCountEntry, delBytesEntry]
  | .dir mOk listable children, cnt, sz => by
      have ih := cleanChildren_eq children cnt sz
      cases mOk <;> cases listable <;>
        simp [cleanEntry, cleanResultEntry, delCountEntry, delBytesEntry,
          ih] <;>
        split <;> simp_all

/-- Characterization of `cleanChildren`, by the same induction. -/
theorem cleanChildren_eq : ∀ (l : List FsEntry) (cnt sz : Nat),
    cleanChildren l cnt sz
      = (cleanResultChildren l,
         cnt + delCountChildren l, sz + delBytesChildren l)
  | [], cnt, sz => by
      simp [cleanChildren, cleanResultChildren, delCountChildren,
        delBytesChildren]
  | c :: cs, cnt, sz => by
      have ih1 := cleanEntry_eq c cnt sz
      have ih2 := cleanChildren_eq cs (cnt + delCountEntry c)
        (sz + delBytesEntry c)
      simp [cleanChildren, cleanResultChildren, delCountChildren,
        delBytesChildren, ih1, ih2, Nat.add_assoc]

end

mutual

/-- An entry that survives one cleaning pass is a fixed point: a second
pass keeps it unchanged and finds no deletable file in it. -/
theorem cleanResultEntry_fix : ∀ (e e2 : FsEntry),
    cleanResultEntry e = some e2 →
    cleanResultEntry e2 = some e2
      ∧ delCountEntry e2 = 0 ∧ delBytesEntry e2 = 0
  | .file fsz mOk del, e2, h => by
      by_cases hc : (mOk && del) = true
      · simp [cleanResultEntry, hc] at h
      · simp [cleanResultEntry, hc] at h
        simp [cleanResultEntry, delCountEntry, delBytesEntry, hc, ← h]
  | .other mOk, e2, h => by
      simp [cleanResultEntry] at h
      simp [cleanResultEntry, delCountEntry, delBytesEntry, ← h]
  | .dir mOk listable children, e2, h => by
      cases mOk with
      | false =>
          simp [cleanResultEntry] at h
          simp [cleanResultEntry, delCountEntry, delBytesEntry, ← h]
      | true =>
          cases listable with
          | false =>
              simp [cleanResultEntry] at h
              rcases h with ⟨hne, he⟩
              simp [cleanResultEntry, delCountEntry, delBytesEntry, ← he,
                hne]
          | true =>
              have ih := cleanResultChildren_fix children
              simp [cleanResultEntry] at h
              rcases h with ⟨hne, he⟩
              simp [cleanResultEntry, delCountEntry, delBytesEntry, ← he,
                ih.1, ih.2.1, ih.2.2, hne]

/-- The list of survivors of one cleaning pass is a fixed point with no
deletable file left. -/
theorem cleanResultChildren_fix : ∀ (l : List FsEntry),
    cleanResultChildren (cleanResultChildren l) = cleanResultChildren l
      ∧ delCountChildren (cleanResultChildren l) = 0
      ∧ delBytesChildren (cleanResultChildren l) = 0
  | [] => by
      simp [cleanResultChildren, delCountChildren, delBytesChildren]
  | c :: cs => by
      have ih2 := cleanResultChildren_fix cs
      cases h : cleanResultEntry c with
      | none => simpa [cleanResultChildren, h] using ih2
      | some c2 =>
          have ih1 := cleanResultEntry_fix c c2 h
          simp [cleanResultChildren, h, ih1.1, ih1.2.1, ih1.2.2,
            delCountChildren, delBytesChildren, ih2.1, ih2.2.1, ih2.2.2]

end

/-- C1: `should_auto_clean` returns false whenever `auto_clean_enabled`
is false; returns false whenever a previous clean occurred and the time
elapsed since it is strictly less than 30 seconds; and otherwise returns
true if and only if the current size in GB is greater than or equal to
the threshold in GB (the comparison is inclusive). -/
theorem C1_should_auto_clean_policy (m : CacheManager) (now : ℚ) :
    (m.config.auto_clean_enabled = false → should_auto_clean m now = false)
    ∧ (∀ t, m.last_clean_time = some t → now - t < 30 →
        should_auto_clean m now = false)
    ∧ (m.config.auto_clean_enabled = true →
        (m.last_clean_time = none ∨
          ∃ t, m.last_clean_time = some t ∧ 30 ≤ now - t) →
        (should_auto_clean m now = true ↔
          m.config.cache_threshold_gb ≤ m.cache_size_gb)) := by
  refine ⟨?_, ?_, ?_⟩
  · intro h
    simp [should_auto_clean, h]
  · intro t ht hlt
    cases he : m.config.auto_clean_enabled <;>
      simp [should_auto_clean, he, ht, hlt]
  · rintro he (hnone | ⟨t, ht, h30⟩)
    · simp [should_auto_clean, he, hnone]
    · simp [should_auto_clean, he, ht, not_lt.mpr h30]

/-- Witness for C1 at concrete inputs: with the policy enabled, a
threshold of 1 GB and a size of 5 GB, a clean 10 seconds ago blocks the
trigger, while a clean 31 seconds ago lets the threshold test decide. -/
theorem C1_should_auto_clean_policy_witness :
    should_auto_clean ⟨⟨1, true⟩, some 0, 5, []⟩ 10 = false
    ∧ (should_auto_clean ⟨⟨1, true⟩, some 0, 5, []⟩ 31 = true ↔
        (1 : ℚ) ≤ 5) := by
  constructor
  · exact (C1_should_auto_clean_policy ⟨⟨1, true⟩, some 0, 5, []⟩ 10).2.1 0
      rfl (by norm_num)
  · exact (C1_should_auto_clean_policy ⟨⟨1, true⟩, some 0, 5, []⟩ 31).2.2
      rfl (Or.inr ⟨0, rfl, by norm_num⟩)

/-- C2: `calculate_dir_size` returns 0 when the path does not exist and
when the entries of the directory cannot be listed; in every case it is
a total function into the non-negative byte counts and propagates no
error. -/
theorem C2_calculate_dir_size_total_function (p : Option FsEntry)
    (mOk : Bool) (ch : List FsEntry) :
    calculate_dir_size none = 0
    ∧ calculate_dir_size (some (.dir mOk false ch)) = 0
    ∧ 0 ≤ calculate_dir_size p := by
  refine ⟨rfl, ?_, Nat.zero_le _⟩
  simp [calculate_dir_size, dirSize]

/-- C3: `clean_directory` never removes the root directory it is given —
removal is attempted only on entries strictly below it — so after a pass
the root is still a directory, even when it was empty beforehand. -/
theorem C3_root_never_removed (mOk listable : Bool) (ch : List FsEntry)
    (cnt sz : Nat) :
    (∃ ch2, (clean_directory (.dir mOk listable ch) cnt sz).1
        = .dir mOk listable ch2)
    ∧ (clean_directory (.dir mOk listable []) cnt sz).1
        = .dir mOk listable [] := by
  constructor
  · cases listable
    · exact ⟨ch, by simp [clean_directory]⟩
    · exact ⟨(cleanChildren ch cnt sz).1, by simp [clean_directory]⟩
  · cases listable <;> simp [clean_directory, cleanChildren]

/-- C4: the cleaner captures a file's size before attempting deletion;
on success the counters grow by one file and by that size; on failure
the file is left in place and nothing is counted; and a per-file failure
never aborts the pass — after `clean_directory` no reachable deletable
file remains, whatever failures the tree contains. -/
theorem C4_per_file_failure_tolerated (fsz cnt sz : Nat) (e : FsEntry) :
    cleanEntry (.file fsz true true) cnt sz = (none, cnt + 1, sz + fsz)
    ∧ cleanEntry (.file fsz true false) cnt sz
        = (some (.file fsz true false), cnt, sz)
    ∧ delCountRoot (clean_directory e cnt sz).1 = 0 := by
  refine ⟨by simp [cleanEntry], by simp [cleanEntry], ?_⟩
  cases e with
  | file fsz2 mOk del => simp [clean_directory, delCountRoot]
  | other mOk => simp [clean_directory, delCountRoot]
  | dir mOk listable ch =>
      cases listable
      · simp [clean_directory, delCountRoot]
      · simp [clean_directory, delCountRoot, cleanChildren_eq,
          (cleanResultChildren_fix ch).2.1]

/-- C5: for a constructed directory tree (the listing of the root
succeeds and the metadata of every immediate child is readable), the
measured size of the tree equals the sum of the measured sizes of its
immediate child subdirectories plus the sizes of the regular files
directly present in it. -/
theorem C5_additivity (mOk : Bool) (ch : List FsEntry)
    (h : ∀ c ∈ ch, entryMetaOk c = true) :
    dirSize (.dir mOk true ch)
      = (ch.map childSubdirMeasure).sum + (ch.map directFileSize).sum := by
  induction ch with
  | nil => simp [dirSize, contribChildren]
  | cons c cs ih =>
      have hc := h c (by simp)
      have hcs := ih fun x hx => h x (by simp [hx])
      simp only [dirSize, if_pos, List.map_cons, List.sum_cons] at hcs ⊢
      simp only [contribChildren]
      cases c with
      | file sz2 mOk2 del =>
          simp only [entryMetaOk] at hc
          simp only [entryContrib, childSubdirMeasure, directFileSize, hc,
            if_pos]
          omega
      | other mOk2 =>
          simp only [entryContrib, childSubdirMeasure, directFileSize]
          omega
      | dir mOk2 l2 ch2 =>
          simp only [entryMetaOk] at hc
          subst hc
          cases l2 <;>
            simp only [entryContrib, childSubdirMeasure, directFileSize,
              dirSize, Bool.and_self, Bool.and_false, if_true, if_false,
              Bool.true_and] <;>
            omega

/-- Witness for C5 at a concrete tree: a root holding one 3-byte file
and one subdirectory holding one 4-byte file. -/
theorem C5_additivity_witness :
    dirSize (.dir true true
        [.file 3 true true, .dir true true [.file 4 true true]])
      = (([.file 3 true true,
            .dir true true [.file 4 true true]] : List FsEntry).map
          childSubdirMeasure).sum
        + (([.file 3 true true,
            .dir true true [.file 4 true true]] : List FsEntry).map
          directFileSize).sum :=
  C5_additivity true _ (by
    intro c hc
    simp only [List.mem_cons, List.not_mem_nil, or_false] at hc
    rcases hc with rfl | rfl <;> rfl)

/-- C6: running `clean_directory` a second time on the tree left by a
first run is safe, changes nothing, and leaves the two accumulators
exactly where they started (a file count of 0 and 0 bytes reclaimed for
the second run). -/
theorem C6_clean_idempotent (e : FsEntry) (cnt sz cnt2 sz2 : Nat) :
    clean_directory (clean_directory e cnt sz).1 cnt2 sz2
      = ((clean_directory e cnt sz).1, cnt2, sz2) := by
  cases e with
  | file fsz mOk del => simp [clean_directory]
  | other mOk => simp [clean_directory]
  | dir mOk listable ch =>
      cases listable
      · simp [clean_directory]
      · simp [clean_directory, cleanChildren_eq,
          (cleanResultChildren_fix ch).1, (cleanResultChildren_fix ch).2.1,
          (cleanResultChildren_fix ch).2.2]

/-- C7: `clean_cache` unconditionally stores the current instant into
`last_clean_time` — also when the pass reclaimed zero bytes — and then
re-measures `cache_size_gb` with `get_cache_size` on the state the pass
left behind. -/
theorem C7_clean_cache_updates_state (m : CacheManager) (now : ℚ) :
    ((clean_cache m now).1).last_clean_time = some now
    ∧ ((clean_cache m now).1).cache_size_gb
        = get_cache_size ((clean_cache m now).1).cache_dirs := by
  constructor <;> simp [clean_cache]

/-- C8: `get_cache_size` is the summed byte total over all roots divided
by 2^30 (binary gigabytes), and — whenever the total is non-zero — is
not the total divided by 10^9 (decimal gigabytes). -/
theorem C8_binary_gigabytes (dirs : List FsEntry) :
    get_cache_size dirs = (total_cache_bytes dirs : ℚ) / 2 ^ 30
    ∧ (total_cache_bytes dirs ≠ 0 →
        get_cache_size dirs ≠ (total_cache_bytes dirs : ℚ) / 10 ^ 9) := by
  constructor
  · norm_num [get_cache_size]
  · intro h heq
    have hN : (total_cache_bytes dirs : ℚ) ≠ 0 := Nat.cast_ne_zero.mpr h
    rw [get_cache_size, div_eq_div_iff (by norm_num) (by norm_num)] at heq
    exact absurd (mul_left_cancel₀ hN heq) (by norm_num)

/-- Witness for C8: a single root holding one 5-byte file has a non-zero
total, and its GB value differs from the decimal-gigabyte quotient. -/
theorem C8_binary_gigabytes_witness :
    total_cache_bytes [.dir true true [.file 5 true true]] ≠ 0
    ∧ get_cache_size [.dir true true [.file 5 true true]]
        ≠ (total_cache_bytes [.dir true true [.file 5 true true]] : ℚ)
          / 10 ^ 9 := by
  have h : total_cache_bytes [.dir true true [.file 5 true true]] ≠ 0 := by
    simp [total_cache_bytes, calculate_dir_size, dirSize, contribChildren,
      entryContrib]
  exact ⟨h, (C8_binary_gigabytes _).2 h⟩

/-- C9: the caller-provided accumulators of `clean_directory` are
monotonically non-decreasing, and they change exactly by the number of
successfully deleted files and by the sum of those files' captured
sizes. -/
theorem C9_accumulators_monotone (e : FsEntry) (cnt sz : Nat) :
    (clean_directory e cnt sz).2.1 = cnt + delCountRoot e
    ∧ (clean_directory e cnt sz).2.2 = sz + delBytesRoot e
    ∧ cnt ≤ (clean_directory e cnt sz).2.1
    ∧ sz ≤ (clean_directory e cnt sz).2.2 := by
  have hmain : (clean_directory e cnt sz).2.1 = cnt + delCountRoot e
      ∧ (clean_directory e cnt sz).2.2 = sz + delBytesRoot e := by
    cases e with
    | file fsz mOk del => simp [clean_directory, delCountRoot, delBytesRoot]
    | other mOk => simp [clean_directory, delCountRoot, delBytesRoot]
    | dir mOk listable ch =>
        cases listable <;>
          simp [clean_directory, delCountRoot, delBytesRoot,
            cleanChildren_eq]
  exact ⟨hmain.1, hmain.2, by rw [hmain.1]; omega, by rw [hmain.2]; omega⟩

/-- C10: an entry whose metadata reports it to be neither a regular file
nor a directory (e.g. a symbolic link, since entry metadata is read
without following links) contributes 0 bytes to the measured total and
is left untouched by the cleaner, with nothing counted and nothing
recursed into. -/
theorem C10_other_entries_skipped (mOk : Bool) (cnt sz : Nat) :
    entryContrib (.other mOk) = 0
    ∧ cleanEntry (.other mOk) cnt sz = (some (.other mOk), cnt, sz) :=
  ⟨by simp [entryContrib], by simp [cleanEntry]⟩

end CacheSpec
